import Mathlib

/-!
# Verification of the Awardpresentation slide editor

A shallow embedding of the data model and operations of the
Awardpresentation repository (a browser-based slide editor for awardee
recognition cards backed by a key-value persistence service), together
with theorems settling the frozen claims about it.

Sources embedded:
- `src/components/EditorPanel.tsx` : the `Awardee` record, drag-reorder
  (`handleDrop`), add/duplicate/delete, layout editing
  (`handleLayoutUpdate`, `handleCopyLayoutToAllChange`) and the batched
  save (`handleSave`).
- `src/supabase/functions/server/index.tsx` : the HTTP API service
  (`DELETE /awardees/:id` and friends) over the key-value store.
- `App.tsx` (unnamed source part) : presentation navigation
  (`nextSlide`, `prevSlide`, `visibleAwardees`, `handleKeyDown`).

JavaScript numbers are modelled as `Rat` (all values produced by the UI
are finite decimals, exactly representable); record ids are integers in
the source and are modelled as `Int`.  Optional (`?:`) fields are
`Option`s; JS truthiness checks on optional strings are modelled
explicitly (`none` and `some ""` are both falsy).
-/

/-- A pixel rectangle, `{ x, y, width, height }` in canvas coordinates
(`EditorPanel.tsx`, `Awardee.layout` values). -/
structure Rect where
  x : Rat
  y : Rat
  width : Rat
  height : Rat
deriving DecidableEq, Repr

/-- A position `{ x, y }` as passed to `handleLayoutUpdate`. -/
structure Pos where
  x : Rat
  y : Rat
deriving DecidableEq, Repr

/-- A size `{ width, height }` as passed to `handleLayoutUpdate`. -/
structure Size where
  width : Rat
  height : Rat
deriving DecidableEq, Repr

/-- `Awardee.slideTheme` (`EditorPanel.tsx` lines 26-31). -/
structure SlideTheme where
  backgroundColor : Option String := none
  accentColor : Option String := none
  accentColorEnd : Option String := none
  accentColorType : Option String := none
deriving DecidableEq, Repr

/-- `Awardee.visibility` (`EditorPanel.tsx` lines 32-39): six optional
show-flags. -/
structure Visibility where
  showPhoto : Option Bool := none
  showName : Option Bool := none
  showTitle : Option Bool := none
  showCategory : Option Bool := none
  showDescription : Option Bool := none
  showDate : Option Bool := none
deriving DecidableEq, Repr

/-- `Awardee.layout`: a JS object mapping element ids (strings such as
"photo", "name", ...) to rectangles.  Modelled as an association list in
object-key insertion order; `handleLayoutUpdate` writes it with a
computed key, so the key type is `String`. -/
def Layout := List (String × Rect)
deriving DecidableEq, Repr

/-- The `Awardee` record (`EditorPanel.tsx` lines 7-49): one slide's full
content and style.  Fields declared with `?:` in the source are
`Option`s defaulting to `none`. -/
structure Awardee where
  id : Int
  name : String
  title : String
  award : String
  description : String
  date : String
  category : String
  photo : String
  photoPath : Option String := none
  organizationLogo : Option String := none
  organizationLogoPath : Option String := none
  organizationLogoSize : Option String := none
  selectedIcon : Option String := none
  logoBadgeColor : Option String := none
  photoScale : Option Rat := none
  descriptionTextSize : Option Rat := none
  tabName : Option String := none
  isHidden : Option Bool := none
  slideTheme : Option SlideTheme := none
  visibility : Option Visibility := none
  layout : Option Layout := none
deriving DecidableEq, Repr

/-!
## Editor panel state

The `EditorPanel` component state slices that the embedded operations
read or write (`EditorPanel.tsx` lines 66-88).  Purely presentational
state (panel width, upload/rename flags, save spinner, ...) is not
touched by the embedded operations and is omitted.
-/

/-- The tab context-menu overlay value `{ x, y, index }`
(`EditorPanel.tsx` line 74). -/
structure CtxMenu where
  x : Rat
  y : Rat
  index : Nat
deriving DecidableEq, Repr

/-- The editor-panel state over the working copy: the editable awardee
collection plus the index/drag bookkeeping used by the embedded
handlers. -/
structure EditorState where
  editingAwardees : List Awardee
  activeTab : Nat
  deleteConfirmIndex : Option Nat := none
  draggedIndex : Option Nat := none
  dragOverIndex : Option Nat := none
  contextMenu : Option CtxMenu := none
  isSaved : Bool := false
deriving DecidableEq, Repr

/-- `updateAwardees` (`EditorPanel.tsx` lines 93-97): installs the new
working copy and marks the document unsaved (the real-time `onUpdate`
push to the preview is outside the panel). -/
def updateAwardees (s : EditorState) (updated : List Awardee) : EditorState :=
  { s with editingAwardees := updated, isSaved := false }

/-- `array.splice(i, 1)`: remove the element at index `i` (JS clamps an
out-of-range start, which `take`/`drop` also do). -/
def spliceRemove (l : List α) (i : Nat) : List α :=
  l.take i ++ l.drop (i + 1)

/-- `array.splice(i, 0, a)`: insert `a` at index `i` (JS clamps an
out-of-range start to the length, as `take`/`drop` do). -/
def spliceInsert (l : List α) (i : Nat) (a : α) : List α :=
  l.take i ++ a :: l.drop i

/-- `handleDrop` (`EditorPanel.tsx` lines 153-184): on a drop at
`dropIndex`, when a drag is in progress and lands on a different index,
splice the dragged item out and back in, adjust `activeTab` to follow
the same record, and clear the transient drag state; otherwise only
clear the drag state.  The source reads `newAwardees[draggedIndex]`,
which is always in bounds in the UI (drag indices come from rendered
tabs); an out-of-bounds dragged index is modelled as clearing the drag
state without touching the collection. -/
def handleDrop (s : EditorState) (dropIndex : Nat) : EditorState :=
  match s.draggedIndex with
  | none => { s with draggedIndex := none, dragOverIndex := none }
  | some draggedIndex =>
    if draggedIndex = dropIndex then
      { s with draggedIndex := none, dragOverIndex := none }
    else
      match s.editingAwardees[draggedIndex]? with
      | none => { s with draggedIndex := none, dragOverIndex := none }
      | some draggedItem =>
        let newAwardees :=
          spliceInsert (spliceRemove s.editingAwardees draggedIndex) dropIndex draggedItem
        let s' := updateAwardees s newAwardees
        let newActiveTab :=
          if s.activeTab = draggedIndex then dropIndex
          else if draggedIndex < s.activeTab ∧ dropIndex ≥ s.activeTab then s.activeTab - 1
          else if draggedIndex > s.activeTab ∧ dropIndex ≤ s.activeTab then s.activeTab + 1
          else s.activeTab
        { s' with activeTab := newActiveTab, draggedIndex := none, dragOverIndex := none }

/-- `Math.max(...editingAwardees.map(a => a.id), 0) + 1`
(`EditorPanel.tsx` lines 392 and 554): the fresh-id rule shared by Add
and Duplicate.  `Math.max` of the spread list together with the extra
argument `0` is the maximum of the ids and `0`, so on the empty
collection it is `0` and the first id is `1`. -/
def nextAwardeeId (editingAwardees : List Awardee) : Int :=
  (editingAwardees.map (fun a => a.id)).foldr max 0 + 1

/-- `handleAddAwardee` (`EditorPanel.tsx` lines 391-405): appends a new
record with the max+1 id and default field values and activates its tab.
`today` stands for `new Date().toLocaleDateString(...)`, the only
environment input. -/
def handleAddAwardee (today : String) (s : EditorState) : EditorState :=
  let newId := nextAwardeeId s.editingAwardees
  let newAwardee : Awardee :=
    { id := newId
      name := "New Awardee"
      title := "Position Title"
      award := "Award Title"
      description := "Add achievement description here..."
      date := today
      category := "Act as Owner"
      photo := "https://images.unsplash.com/photo-1494790108377-be9c29b29330?w=400&h=400&fit=crop" }
  let s' := updateAwardees s (s.editingAwardees ++ [newAwardee])
  { s' with activeTab := s.editingAwardees.length }

/-- `handleDuplicate` (`EditorPanel.tsx` lines 552-565): clones the
record at `index`, gives the clone the max+1 id, appends " (Copy)" to a
truthy tab name (a JS falsy check: an absent or empty `tabName` yields
`undefined`), splices the clone in right after the source, activates its
tab and closes the context menu.  The source reads
`editingAwardees[index]`, in bounds for every index the menu can carry;
an out-of-bounds index is modelled as a no-op. -/
def handleDuplicate (s : EditorState) (index : Nat) : EditorState :=
  match s.editingAwardees[index]? with
  | none => s
  | some awardee =>
    let newId := nextAwardeeId s.editingAwardees
    let duplicated : Awardee :=
      { awardee with
          id := newId
          tabName :=
            match awardee.tabName with
            | some t => if t = "" then none else some (t ++ " (Copy)")
            | none => none }
    let updated := spliceInsert s.editingAwardees (index + 1) duplicated
    let s' := updateAwardees s updated
    { s' with activeTab := index + 1, contextMenu := none }

/-- `handleDeleteAwardee` (`EditorPanel.tsx` lines 407-410): phase one of
the two-phase delete; records the pending index and closes the context
menu. -/
def handleDeleteAwardee (s : EditorState) (index : Nat) : EditorState :=
  { s with deleteConfirmIndex := some index, contextMenu := none }

/-- `confirmDelete` (`EditorPanel.tsx` lines 412-421): removes the
record at the pending index (`filter((_, i) => i !== deleteConfirmIndex)`,
i.e. erase-by-index), clamps `activeTab` into bounds
(`Math.max(0, length - 1)`), and clears the pending state. -/
def confirmDelete (s : EditorState) : EditorState :=
  match s.deleteConfirmIndex with
  | none => s
  | some deleteConfirmIndex =>
    let updated := s.editingAwardees.eraseIdx deleteConfirmIndex
    let s' := updateAwardees s updated
    let newActiveTab :=
      if s.activeTab ≥ updated.length then max 0 (updated.length - 1) else s.activeTab
    { s' with activeTab := newActiveTab, deleteConfirmIndex := none }

/-- `cancelDelete` (`EditorPanel.tsx` lines 423-425). -/
def cancelDelete (s : EditorState) : EditorState :=
  { s with deleteConfirmIndex := none }

/-- JS object spread with a computed key,
`{ ...layout, [elementId]: rect }`: overwrite the binding in place when
the key exists, otherwise append it. -/
def layoutSet : Layout → String → Rect → Layout
  | [], k, v => [(k, v)]
  | (k', v') :: rest, k, v =>
    if k' = k then (k, v) :: rest else (k', v') :: layoutSet rest k v

/-- `handleLayoutUpdate` (`EditorPanel.tsx` lines 359-387): writes the
rectangle for `elementId`.  When the copy-layout-to-all toggle is on AND
the active tab is the first slide, the rectangle is fanned out to every
slide (each keeps its other elements); otherwise it is written to the
active slide only.  The source reads `updated[activeTab].layout` before
branching, so `activeTab` is in bounds whenever the handler runs; an
out-of-bounds active tab on the single-slide branch is modelled as a
no-op. -/
def handleLayoutUpdate (copyLayoutToAll : Bool) (activeTab : Nat)
    (editingAwardees : List Awardee) (elementId : String)
    (position : Pos) (size : Size) : List Awardee :=
  let rect : Rect := ⟨position.x, position.y, size.width, size.height⟩
  if copyLayoutToAll ∧ activeTab = 0 then
    editingAwardees.map fun a =>
      { a with layout := some (layoutSet (a.layout.getD []) elementId rect) }
  else
    match editingAwardees[activeTab]? with
    | none => editingAwardees
    | some a =>
      editingAwardees.set activeTab
        { a with layout := some (layoutSet (a.layout.getD []) elementId rect) }

/-- `handleCopyLayoutToAllChange` (`EditorPanel.tsx` lines 343-357): on
checking the toggle with a nonempty collection, copies slide 1's layout
object to every slide; unchecking only flips the flag. -/
def handleCopyLayoutToAllChange (checked : Bool)
    (editingAwardees : List Awardee) : Bool × List Awardee :=
  if checked ∧ editingAwardees.length > 0 then
    let firstSlideLayout := editingAwardees[0]?.bind fun a => a.layout
    (checked, editingAwardees.map fun a => { a with layout := firstSlideLayout })
  else
    (checked, editingAwardees)

/-!
## The batched save (`handleSave`, `EditorPanel.tsx` lines 427-520)

The network is an explicit environment: each `fetch` either resolves
(`ok`) or rejects with a network failure (`netError`), which the
source's `try`/`catch` turns into a user-facing alert.  The source never
inspects `response.ok` for the initial GET or for the individual
DELETEs, so their results carry only the data the source actually
reads.
-/

/-- The outcome of one `fetch`: a resolved response of type `α`, or a
rejected promise (network/transport failure). -/
inductive FetchResult (α : Type) where
  | ok (a : α)
  | netError
deriving DecidableEq, Repr

/-- The parsed JSON body of `GET /awardees` as the client reads it:
`data.awardees || []` — the field may be absent (for instance in an
error body `{error}`), in which case the empty list is used. -/
structure GetAwardeesResp where
  awardees : Option (List Awardee)
deriving DecidableEq, Repr

/-- An HTTP response of which the client only reads the `ok` status flag
(the batch POST and the custom-categories POST). -/
structure HttpResp where
  ok : Bool
deriving DecidableEq, Repr

/-- The network environment of one save: the result of each request the
save can issue. -/
structure SaveEnv where
  getAwardees : FetchResult GetAwardeesResp
  deleteAwardee : Int → FetchResult Unit
  batch : FetchResult HttpResp
  postCategories : FetchResult HttpResp

/-- A local record tagged with its positional order,
`{ ...awardee, order: index }` (`EditorPanel.tsx` lines 464-467). -/
structure OrderedAwardee where
  record : Awardee
  order : Nat
deriving DecidableEq, Repr

/-- `editingAwardees.map((awardee, index) => ({ ...awardee, order: index }))`. -/
def awardeesWithOrder (editingAwardees : List Awardee) : List OrderedAwardee :=
  editingAwardees.enum.map fun p => ⟨p.2, p.1⟩

/-- What the user is told at the end of a save: the success state, or
the blocking `alert` raised by the `catch` block / the thrown batch
error. -/
inductive SaveOutcome where
  | success
  | alertError
deriving DecidableEq, Repr

/-- The observable trace of one `handleSave` run: the reported outcome,
the ids the DELETE requests were issued for, the payload of the batch
POST (`none` when the save failed before issuing it) and of the
custom-categories POST. -/
structure SaveTrace where
  outcome : SaveOutcome
  deletesIssued : List Int
  batchPosted : Option (List OrderedAwardee)
  categoriesPosted : Option (List String)
deriving DecidableEq, Repr

/-- `handleSave` (`EditorPanel.tsx` lines 427-520).  Fetches the current
server records, computes `awardeesToDelete` as the server records whose
id is not in the working copy, issues a DELETE for each (`Promise.all` —
a single rejection fails the save), then POSTs the whole working copy
tagged with positional `order` to `/awardees/batch` (a non-ok response
throws), then POSTs the custom-category list — whose non-ok response is
only logged to the console and does NOT fail the save.  Any rejected
fetch reaches the `catch` block and surfaces an alert. -/
def handleSave (env : SaveEnv) (editingAwardees : List Awardee)
    (customCategories : List String) : SaveTrace :=
  match env.getAwardees with
  | .netError => ⟨.alertError, [], none, none⟩
  | .ok data =>
    let existingAwardees := data.awardees.getD []
    let currentIds := editingAwardees.map fun a => a.id
    let awardeesToDelete := existingAwardees.filter fun a => ¬ currentIds.contains a.id
    let deletesIssued := awardeesToDelete.map fun a => a.id
    if awardeesToDelete.any fun a =>
        match env.deleteAwardee a.id with
        | .netError => true
        | .ok _ => false then
      ⟨.alertError, deletesIssued, none, none⟩
    else
      let payload := awardeesWithOrder editingAwardees
      match env.batch with
      | .netError => ⟨.alertError, deletesIssued, some payload, none⟩
      | .ok batchResponse =>
        if ¬ batchResponse.ok then
          ⟨.alertError, deletesIssued, some payload, none⟩
        else
          match env.postCategories with
          | .netError => ⟨.alertError, deletesIssued, some payload, some customCategories⟩
          | .ok _catResponse =>
            ⟨.success, deletesIssued, some payload, some customCategories⟩

/-!
## The HTTP API service (`src/supabase/functions/server/index.tsx`)

The key-value store adapter (`kv_store.tsx`) is imported by the server
but is not part of this source tree; the spec treats it as an opaque
`get`/`set`/`del`/`getByPrefix` service, so it is modelled here as an
association list with standard map semantics.  File storage is modelled
as the set (list) of object paths present in the bucket.
-/

/-- A key-value record as stored under `awardee:{id}`: the awardee JSON,
possibly carrying the `order` field added by the client on batch save. -/
structure StoredRecord where
  record : Awardee
  order : Option Nat := none
deriving DecidableEq, Repr

/-- Modelled from the spec: `kv.get(key)` of the opaque key-value store
adapter (`kv_store.tsx` is absent from the source tree; spec section 2
describes the adapter as an opaque get/set/del/prefix-scan service). -/
def kvGet : List (String × StoredRecord) → String → Option StoredRecord
  | [], _ => none
  | (k', v') :: rest, k => if k' = k then some v' else kvGet rest k

/-- Modelled from the spec: `kv.set(key, value)` — upsert: overwrite the
existing binding for the key, or add one. -/
def kvSet : List (String × StoredRecord) → String → StoredRecord →
    List (String × StoredRecord)
  | [], k, v => [(k, v)]
  | (k', v') :: rest, k, v =>
    if k' = k then (k, v) :: rest else (k', v') :: kvSet rest k v

/-- Modelled from the spec: `kv.del(key)` — remove the binding for the
key if present. -/
def kvDel : List (String × StoredRecord) → String → List (String × StoredRecord)
  | [], _ => []
  | (k', v') :: rest, k =>
    if k' = k then kvDel rest k else (k', v') :: kvDel rest k

/-- The server-side persistent state: the key-value records and the
paths of the objects in the storage bucket. -/
structure ServerState where
  kv : List (String × StoredRecord)
  storage : List String
deriving DecidableEq, Repr

/-- `DELETE /awardees/:id` (`index.tsx` lines 98-118): read the record
under `awardee:{id}` to find its `photoPath`, remove the stored file if
that path is truthy (`if (awardee?.photoPath)` — absent record, absent
path and empty-string path all skip the removal), then delete the
key-value record and respond `{success: true}`. -/
def deleteAwardeeRoute (s : ServerState) (idParam : String) : ServerState × Bool :=
  let key := "awardee:" ++ idParam
  let awardee := kvGet s.kv key
  let storage' :=
    match awardee with
    | some st =>
      match st.record.photoPath with
      | some p => if p = "" then s.storage else s.storage.filter fun q => q ≠ p
      | none => s.storage
    | none => s.storage
  ({ kv := kvDel s.kv key, storage := storage' }, true)

/-- Modelled from the spec: the `POST /awardees/batch` route handler is
absent from the server source snapshot (`index.tsx` defines only
health, GET/POST `/awardees`, DELETE `/awardees/:id` and
`/upload-photo`, while its caller `handleSave` in `EditorPanel.tsx` and
spec sections 4.1 and 6 rely on it).  Per the spec it "upserts many
records in one call" — each posted record is stored under
`awardee:{id}` — and responds `{success}`. -/
def batchUpsertRoute (s : ServerState) (awardees : List OrderedAwardee) :
    ServerState × Bool :=
  (awardees.foldl
    (fun st a =>
      { st with
          kv := kvSet st.kv ("awardee:" ++ toString a.record.id)
                  { record := a.record, order := some a.order } })
    s, true)

/-!
## Presentation navigation (`App.tsx`, unnamed source part)
-/

/-- The `App` component state slices read by the keyboard handler. -/
structure AppState where
  currentSlide : Nat
  awardees : List Awardee
  isEditorOpen : Bool
  isPreviewMode : Bool
deriving DecidableEq, Repr

/-- `visibleAwardees` (`App.tsx`): in preview mode, the awardees whose
`isHidden` is not truthy (an absent flag counts as visible); outside
preview mode, all awardees. -/
def visibleAwardees (s : AppState) : List Awardee :=
  if s.isPreviewMode then
    s.awardees.filter fun awardee => ¬ awardee.isHidden.getD false
  else
    s.awardees

/-- `nextSlide` (`App.tsx`): `(prev + 1) % visibleAwardees.length`. -/
def nextSlide (s : AppState) : AppState :=
  { s with currentSlide := (s.currentSlide + 1) % (visibleAwardees s).length }

/-- `prevSlide` (`App.tsx`): `(prev - 1 + visibleAwardees.length) %
visibleAwardees.length`.  Written here as `(prev + length - 1) % length`,
which agrees with the JS expression for every `prev ≥ 0` whenever the
visible list is nonempty (with an empty list the JS expression is `NaN`).
-/
def prevSlide (s : AppState) : AppState :=
  { s with
      currentSlide :=
        (s.currentSlide + (visibleAwardees s).length - 1) % (visibleAwardees s).length }

/-- The keys the handler distinguishes. -/
inductive Key where
  | arrowLeft
  | arrowRight
  | escape
  | other
deriving DecidableEq, Repr

/-- `handleKeyDown` (`App.tsx`): keyboard navigation is a no-op while
the editor panel is open; otherwise Left/Right arrows move to the
adjacent slide and Escape leaves preview mode. -/
def handleKeyDown (s : AppState) (key : Key) : AppState :=
  if s.isEditorOpen then s
  else
    match key with
    | .arrowLeft => prevSlide s
    | .arrowRight => nextSlide s
    | .escape => if s.isPreviewMode then { s with isPreviewMode := false } else s
    | .other => s

/-!
## Concrete fixtures for witnesses and counterexamples
-/

/-- A minimal concrete awardee used to instantiate theorems; the field
values follow the defaults of `handleAddAwardee`. -/
def sampleAwardee (id : Int) : Awardee :=
  { id := id
    name := "New Awardee"
    title := "Position Title"
    award := "Award Title"
    description := "Add achievement description here..."
    date := "February 2026"
    category := "Act as Owner"
    photo := "https://images.unsplash.com/photo-1494790108377-be9c29b29330?w=400&h=400&fit=crop" }

/-- A three-slide editor state with a drag from index 0 in progress,
used to instantiate the reorder theorems. -/
def sampleEditorState : EditorState :=
  { editingAwardees := [sampleAwardee 1, sampleAwardee 2, sampleAwardee 3]
    activeTab := 0
    draggedIndex := some 0 }

/-!
## Splice lemmas
-/

theorem spliceRemove_length (l : List α) (i : Nat) (h : i < l.length) :
    (spliceRemove l i).length = l.length - 1 := by
  simp [spliceRemove]
  omega

theorem spliceRemove_perm (l : List α) (i : Nat) (h : i < l.length) :
    List.Perm l (l[i] :: spliceRemove l i) := by
  have h3 : l.take i ++ l[i] :: l.drop (i + 1) = l := by
    rw [← List.drop_eq_getElem_cons h, List.take_append_drop]
  have h2 : List.Perm (l.take i ++ l[i] :: l.drop (i + 1))
      (l[i] :: (l.take i ++ l.drop (i + 1))) := List.perm_middle
  have h4 : List.Perm l (l.take i ++ l[i] :: l.drop (i + 1)) := by
    rw [h3]
  exact h4.trans h2

theorem spliceInsert_perm (l : List α) (i : Nat) (a : α) :
    List.Perm (spliceInsert l i a) (a :: l) := by
  have h2 : List.Perm (l.take i ++ a :: l.drop i)
      (a :: (l.take i ++ l.drop i)) := List.perm_middle
  show List.Perm (l.take i ++ a :: l.drop i) (a :: l)
  rwa [List.take_append_drop] at h2

theorem spliceRemove_getElem? (l : List α) (i : Nat) (j : Nat) (h : i < l.length) :
    (spliceRemove l i)[j]? = if j < i then l[j]? else l[j + 1]? := by
  unfold spliceRemove
  have htl : (l.take i).length = i := by
    simp [List.length_take]
    omega
  rw [List.getElem?_append, htl]
  split_ifs with hj
  · rw [List.getElem?_take, if_pos hj]
  · rw [List.getElem?_drop]
    have h5 : i + 1 + (j - i) = j + 1 := by omega
    rw [h5]

theorem spliceInsert_getElem? (l : List α) (i : Nat) (a : α) (j : Nat)
    (h : i ≤ l.length) :
    (spliceInsert l i a)[j]? =
      if j < i then l[j]? else if j = i then some a else l[j - 1]? := by
  unfold spliceInsert
  have htl : (l.take i).length = i := by
    simp [List.length_take]
    omega
  rw [List.getElem?_append, htl]
  split_ifs with hj hj2
  · rw [List.getElem?_take, if_pos hj]
  · have h0 : j - i = 0 := by omega
    rw [h0, List.getElem?_cons_zero]
  · have h1 : j - i = (j - i - 1) + 1 := by omega
    rw [h1, List.getElem?_cons_succ, List.getElem?_drop]
    have h2 : i + (j - i - 1) = j - 1 := by omega
    rw [h2]

/-!
## C10 — a degenerate drop only clears the drag state
-/

/-- C10: a drop whose `dropIndex` equals the current `draggedIndex`, or
that occurs when no drag is in progress (`draggedIndex` is null), leaves
the awardee collection, `activeTab` and all other editor state
unchanged; it only clears the transient drag state. -/
theorem drop_degenerate_only_clears_drag (s : EditorState) (dropIndex : Nat)
    (h : s.draggedIndex = none ∨ s.draggedIndex = some dropIndex) :
    handleDrop s dropIndex = { s with draggedIndex := none, dragOverIndex := none } := by
  rcases h with h | h <;> simp [handleDrop, h]

/-- Witness for C10 at a concrete state: dropping at the dragged index
itself. -/
theorem drop_degenerate_only_clears_drag_witness :
    handleDrop sampleEditorState 0 =
      { sampleEditorState with draggedIndex := none, dragOverIndex := none } :=
  drop_degenerate_only_clears_drag sampleEditorState 0 (Or.inr rfl)

/-!
## C2 — valid reorders permute, preserving size and the id set
-/

/-- C2: every valid reorder (dragged and drop indices in bounds and
distinct) keeps the collection a permutation of itself — same length,
same set of ids — and moves the dragged item to `dropIndex` (splice
semantics). -/
theorem reorder_preserves_ids (s : EditorState) (di dropIndex : Nat)
    (hdi : s.draggedIndex = some di)
    (h1 : di < s.editingAwardees.length)
    (h2 : dropIndex < s.editingAwardees.length)
    (hne : di ≠ dropIndex) :
    List.Perm (handleDrop s dropIndex).editingAwardees s.editingAwardees
    ∧ (handleDrop s dropIndex).editingAwardees.length = s.editingAwardees.length
    ∧ (∀ i : Int, i ∈ (handleDrop s dropIndex).editingAwardees.map (fun a => a.id) ↔
        i ∈ s.editingAwardees.map (fun a => a.id))
    ∧ (handleDrop s dropIndex).editingAwardees[dropIndex]? = s.editingAwardees[di]? := by
  have hget : s.editingAwardees[di]? = some s.editingAwardees[di] :=
    List.getElem?_eq_getElem h1
  have hdef : (handleDrop s dropIndex).editingAwardees =
      spliceInsert (spliceRemove s.editingAwardees di) dropIndex s.editingAwardees[di] := by
    simp [handleDrop, hdi, hne, hget, updateAwardees]
  have hperm : List.Perm (handleDrop s dropIndex).editingAwardees s.editingAwardees := by
    rw [hdef]
    exact ((spliceInsert_perm _ _ _).trans (spliceRemove_perm _ _ h1).symm)
  refine ⟨hperm, hperm.length_eq, fun i => (hperm.map (fun a => a.id)).mem_iff, ?_⟩
  rw [hdef, spliceInsert_getElem?, if_neg (by omega), if_pos rfl, hget]
  rw [spliceRemove_length _ _ h1]
  omega

/-- Witness for C2: dragging the first of three slides onto the last. -/
theorem reorder_preserves_ids_witness :
    List.Perm (handleDrop sampleEditorState 2).editingAwardees sampleEditorState.editingAwardees
    ∧ (handleDrop sampleEditorState 2).editingAwardees.length =
        sampleEditorState.editingAwardees.length
    ∧ (∀ i : Int, i ∈ (handleDrop sampleEditorState 2).editingAwardees.map (fun a => a.id) ↔
        i ∈ sampleEditorState.editingAwardees.map (fun a => a.id))
    ∧ (handleDrop sampleEditorState 2).editingAwardees[2]? =
        sampleEditorState.editingAwardees[0]? :=
  reorder_preserves_ids sampleEditorState 0 2 rfl (by decide) (by decide) (by decide)

/-!
## C7 — after a reorder, `activeTab` points at the same record
-/

/-- C7: after a valid reorder, `activeTab` still points at the same
record: it follows the dragged item to `dropIndex` when it pointed at
it, shifts by minus one when the drag crossed it from below, by plus one
when crossed from above, and is otherwise unchanged — and in every case
the record found at the new `activeTab` is the record that was at the
old one. -/
theorem reorder_active_tab_follows (s : EditorState) (di dropIndex : Nat)
    (hdi : s.draggedIndex = some di)
    (h1 : di < s.editingAwardees.length)
    (h2 : dropIndex < s.editingAwardees.length)
    (hne : di ≠ dropIndex)
    (hat : s.activeTab < s.editingAwardees.length) :
    (handleDrop s dropIndex).editingAwardees[(handleDrop s dropIndex).activeTab]? =
      s.editingAwardees[s.activeTab]?
    ∧ (handleDrop s dropIndex).activeTab =
        (if s.activeTab = di then dropIndex
         else if di < s.activeTab ∧ dropIndex ≥ s.activeTab then s.activeTab - 1
         else if di > s.activeTab ∧ dropIndex ≤ s.activeTab then s.activeTab + 1
         else s.activeTab) := by
  have hget : s.editingAwardees[di]? = some s.editingAwardees[di] :=
    List.getElem?_eq_getElem h1
  have hlist : (handleDrop s dropIndex).editingAwardees =
      spliceInsert (spliceRemove s.editingAwardees di) dropIndex s.editingAwardees[di] := by
    simp [handleDrop, hdi, hne, hget, updateAwardees]
  have htab : (handleDrop s dropIndex).activeTab =
      (if s.activeTab = di then dropIndex
       else if di < s.activeTab ∧ dropIndex ≥ s.activeTab then s.activeTab - 1
       else if di > s.activeTab ∧ dropIndex ≤ s.activeTab then s.activeTab + 1
       else s.activeTab) := by
    simp [handleDrop, hdi, hne, hget, updateAwardees]
  refine ⟨?_, htab⟩
  have hrl : (spliceRemove s.editingAwardees di).length = s.editingAwardees.length - 1 :=
    spliceRemove_length _ _ h1
  have hdr : dropIndex ≤ (spliceRemove s.editingAwardees di).length := by omega
  rw [hlist, htab]
  by_cases hA : s.activeTab = di
  · rw [if_pos hA, spliceInsert_getElem? _ _ _ _ hdr, if_neg (by omega), if_pos rfl, hA]
    exact hget.symm
  · rw [if_neg hA]
    by_cases hB : di < s.activeTab ∧ dropIndex ≥ s.activeTab
    · rw [if_pos hB, spliceInsert_getElem? _ _ _ _ hdr, if_pos (by omega),
        spliceRemove_getElem? _ _ _ h1, if_neg (by omega)]
      have he : s.activeTab - 1 + 1 = s.activeTab := by omega
      rw [he]
    · rw [if_neg hB]
      by_cases hC : di > s.activeTab ∧ dropIndex ≤ s.activeTab
      · rw [if_pos hC, spliceInsert_getElem? _ _ _ _ hdr, if_neg (by omega),
          if_neg (by omega)]
        have he : s.activeTab + 1 - 1 = s.activeTab := by omega
        rw [he, spliceRemove_getElem? _ _ _ h1, if_pos (by omega)]
      · rw [if_neg hC, spliceInsert_getElem? _ _ _ _ hdr]
        by_cases hD : di < s.activeTab
        · -- the drag started below the active tab and dropped below it too
          rw [if_neg (by omega), if_neg (by omega),
            spliceRemove_getElem? _ _ _ h1, if_neg (by omega)]
          have he : s.activeTab - 1 + 1 = s.activeTab := by omega
          rw [he]
        · -- the drag started above the active tab and dropped above it too
          rw [if_pos (by omega), spliceRemove_getElem? _ _ _ h1, if_pos (by omega)]

/-- Witness for C7: dragging slide 0 to slide 2 while slide 1 is active
crosses the active tab from below, so `activeTab` becomes 0 and still
points at the record that was at index 1. -/
theorem reorder_active_tab_follows_witness :
    (handleDrop { sampleEditorState with activeTab := 1 } 2).editingAwardees[
        (handleDrop { sampleEditorState with activeTab := 1 } 2).activeTab]? =
      ({ sampleEditorState with activeTab := 1 } : EditorState).editingAwardees[1]?
    ∧ (handleDrop { sampleEditorState with activeTab := 1 } 2).activeTab =
        (if 1 = 0 then 2
         else if 0 < 1 ∧ 2 ≥ 1 then 1 - 1
         else if 0 > 1 ∧ 2 ≤ 1 then 1 + 1
         else 1) :=
  reorder_active_tab_follows { sampleEditorState with activeTab := 1 } 0 2 rfl
    (by decide) (by decide) (by decide) (by decide)

/-!
## C5 — the max+1 id policy
-/

theorem le_foldr_max (l : List Int) (x : Int) (hx : x ∈ l) : x ≤ l.foldr max 0 := by
  induction l with
  | nil => cases hx
  | cons y ys ih =>
    rcases List.mem_cons.mp hx with h | h
    · subst h
      exact le_max_left _ _
    · exact le_trans (ih h) (le_max_right _ _)

/-- An editor state over the empty collection. -/
def emptyEditorState : EditorState :=
  { editingAwardees := [], activeTab := 0 }

/-- C5 (amended): Add and Duplicate assign the new record the shared
max+1 id — strictly greater than every id currently in the collection,
with the max over the empty collection defaulting to 0 so the first id
is 1.  (The original claim's further assertion that an id is never
reused after a deletion is refuted by
`duplicate_id_reuse_after_delete_cex`.) -/
theorem add_duplicate_fresh_id (s : EditorState) (today : String) (j : Nat)
    (hj : j < s.editingAwardees.length) :
    ((handleAddAwardee today s).editingAwardees[s.editingAwardees.length]?.map
        (fun a => a.id) = some (nextAwardeeId s.editingAwardees))
    ∧ ((handleDuplicate s j).editingAwardees[j + 1]?.map (fun a => a.id)
        = some (nextAwardeeId s.editingAwardees))
    ∧ (∀ a ∈ s.editingAwardees, a.id < nextAwardeeId s.editingAwardees)
    ∧ nextAwardeeId [] = 1 := by
  refine ⟨?_, ?_, ?_, rfl⟩
  · simp [handleAddAwardee, updateAwardees]
  · have hget : s.editingAwardees[j]? = some s.editingAwardees[j] :=
      List.getElem?_eq_getElem hj
    simp only [handleDuplicate, hget, updateAwardees]
    rw [spliceInsert_getElem? _ _ _ _ (by omega), if_neg (by omega), if_pos rfl]
    rfl
  · intro a ha
    have : a.id ∈ s.editingAwardees.map (fun a => a.id) :=
      List.mem_map.mpr ⟨a, ha, rfl⟩
    have := le_foldr_max _ _ this
    unfold nextAwardeeId
    omega

/-- Witness for C5 at a concrete three-slide collection with ids 1, 2, 3
(the fresh id is 4, strictly above all of them). -/
theorem add_duplicate_fresh_id_witness :
    ((handleAddAwardee "February 2026" sampleEditorState).editingAwardees[
        sampleEditorState.editingAwardees.length]?.map (fun a => a.id)
      = some (nextAwardeeId sampleEditorState.editingAwardees))
    ∧ ((handleDuplicate sampleEditorState 0).editingAwardees[0 + 1]?.map (fun a => a.id)
        = some (nextAwardeeId sampleEditorState.editingAwardees))
    ∧ (∀ a ∈ sampleEditorState.editingAwardees,
        a.id < nextAwardeeId sampleEditorState.editingAwardees)
    ∧ nextAwardeeId [] = 1 :=
  add_duplicate_fresh_id sampleEditorState "February 2026" 0 (by decide)

/-- Counterexample to C5 as stated: starting from the empty collection,
Add creates ids 1 then 2; deleting the record with id 2 and adding again
re-assigns id 2 — the id of a previously deleted record is reused,
because max+1 looks only at the ids still present. -/
theorem duplicate_id_reuse_after_delete_cex :
    (let s2 := handleAddAwardee "February 2026"
        (handleAddAwardee "February 2026" emptyEditorState)
     let s3 := confirmDelete (handleDeleteAwardee s2 1)
     let s4 := handleAddAwardee "February 2026" s3
     s2.editingAwardees.map (fun a => a.id) = [1, 2]
     ∧ s3.editingAwardees.map (fun a => a.id) = [1]
     ∧ s4.editingAwardees.map (fun a => a.id) = [1, 2]) :=
  ⟨rfl, rfl, rfl⟩

/-!
## C4 — the copy-layout-to-all toggle
-/

/-- A concrete slide whose layout holds one "photo" rectangle (the
default photo rectangle of the layout initializer). -/
def slideWithLayout (id : Int) : Awardee :=
  { sampleAwardee id with layout := some [("photo", ⟨100, 200, 400, 400⟩)] }

/-- Counterexample to C4 as stated: with the copy-layout-to-all toggle
active, a layout edit on slide index 1 (not the first slide) is NOT a
no-op — it changes that slide's layout while leaving slide 0 untouched,
so per-slide layout state diverges while the toggle is on. -/
theorem layout_update_toggle_cex :
    (handleLayoutUpdate true 1 [slideWithLayout 1, slideWithLayout 2] "photo"
        ⟨0, 0⟩ ⟨50, 50⟩)[1]? ≠ [slideWithLayout 1, slideWithLayout 2][1]?
    ∧ (handleLayoutUpdate true 1 [slideWithLayout 1, slideWithLayout 2] "photo"
        ⟨0, 0⟩ ⟨50, 50⟩)[0]? = [slideWithLayout 1, slideWithLayout 2][0]? := by
  decide

/-- C4 (amended): while the copy-layout-to-all toggle is active, an edit
originating from the first slide fans the edited element's rectangle out
to every slide (each slide keeping its other elements); an edit
performed on any other slide is not a no-op — it writes the rectangle to
that slide alone and leaves every other slide unchanged, so per-slide
layout state can diverge while the toggle is on. -/
theorem layout_update_toggle_behavior (activeTab : Nat) (l : List Awardee)
    (elementId : String) (p : Pos) (z : Size) :
    (activeTab = 0 → ∀ j : Nat,
        (handleLayoutUpdate true activeTab l elementId p z)[j]? =
          l[j]?.map fun a =>
            { a with layout := some (layoutSet (a.layout.getD []) elementId
                ⟨p.x, p.y, z.width, z.height⟩) })
    ∧ (activeTab ≠ 0 → ∀ aw : Awardee, l[activeTab]? = some aw →
        ((handleLayoutUpdate true activeTab l elementId p z)[activeTab]? =
            some { aw with layout := some (layoutSet (aw.layout.getD []) elementId
                ⟨p.x, p.y, z.width, z.height⟩) }
          ∧ ∀ j : Nat, j ≠ activeTab →
              (handleLayoutUpdate true activeTab l elementId p z)[j]? = l[j]?)) := by
  constructor
  · intro h0 j
    subst h0
    simp [handleLayoutUpdate]
  · intro hne aw haw
    have hlt : activeTab < l.length := by
      by_contra hge
      rw [List.getElem?_eq_none (by omega)] at haw
      cases haw
    have hdef : handleLayoutUpdate true activeTab l elementId p z =
        l.set activeTab
          { aw with layout := some (layoutSet (aw.layout.getD []) elementId
              ⟨p.x, p.y, z.width, z.height⟩) } := by
      simp [handleLayoutUpdate, hne, haw]
    constructor
    · rw [hdef]
      simp [hlt]
    · intro j hj
      rw [hdef]
      exact List.getElem?_set_ne (by omega)

/-- Witness for C4 (amended) at the counterexample state: editing slide
index 1 with the toggle on rewrites that slide's photo rectangle and
leaves slide 0 alone. -/
theorem layout_update_toggle_behavior_witness :
    (handleLayoutUpdate true 1 [slideWithLayout 1, slideWithLayout 2] "photo"
        ⟨0, 0⟩ ⟨50, 50⟩)[1]? =
      some { slideWithLayout 2 with
               layout := some (layoutSet ((slideWithLayout 2).layout.getD []) "photo"
                 ⟨(0 : Rat), 0, 50, 50⟩) }
    ∧ ∀ j : Nat, j ≠ 1 →
        (handleLayoutUpdate true 1 [slideWithLayout 1, slideWithLayout 2] "photo"
          ⟨0, 0⟩ ⟨50, 50⟩)[j]? = [slideWithLayout 1, slideWithLayout 2][j]? :=
  (layout_update_toggle_behavior 1 [slideWithLayout 1, slideWithLayout 2] "photo"
    ⟨0, 0⟩ ⟨50, 50⟩).2 (by decide) (slideWithLayout 2) rfl

/-!
## C6 — save failure reporting
-/

theorem deleteOk_of_not_any {env : SaveEnv} {toDelete : List Awardee}
    (h : ¬ (toDelete.any fun a =>
        match env.deleteAwardee a.id with
        | .netError => true
        | .ok _ => false) = true) :
    ∀ a ∈ toDelete, env.deleteAwardee a.id = .ok () := by
  intro a ha
  rw [List.any_eq_true] at h
  push_neg at h
  have ha2 := h a ha
  cases he : env.deleteAwardee a.id with
  | ok u =>
    cases u
    rfl
  | netError =>
    rw [he] at ha2
    simp at ha2

theorem not_any_of_deleteOk {env : SaveEnv} {toDelete : List Awardee}
    (h : ∀ a ∈ toDelete, env.deleteAwardee a.id = .ok ()) :
    (toDelete.any fun a =>
        match env.deleteAwardee a.id with
        | .netError => true
        | .ok _ => false) = false := by
  rw [List.any_eq_false]
  intro a ha
  rw [h a ha]
  simp

/-- C6 (amended): `handleSave` reports success exactly when the initial
fetch resolves, every issued delete resolves, the batch upsert resolves
with an ok status, and the custom-categories POST resolves — whatever
status the category response carries.  In particular any network failure
in a step the save reaches makes the whole save fail with a surfaced
alert (the outcome type has no partial-success value), but a resolved
non-ok custom-categories response is only logged and does not prevent
the success report. -/
theorem handleSave_success_iff (env : SaveEnv) (l : List Awardee)
    (cats : List String) :
    (handleSave env l cats).outcome = SaveOutcome.success ↔
      (∃ data, env.getAwardees = .ok data
        ∧ (∀ a ∈ (data.awardees.getD []).filter
              (fun a => ¬ (l.map fun b => b.id).contains a.id),
            env.deleteAwardee a.id = .ok ())
        ∧ (∃ r, env.batch = .ok r ∧ r.ok = true)
        ∧ (∃ c, env.postCategories = .ok c)) := by
  unfold handleSave
  cases hg : env.getAwardees with
  | netError => simp
  | ok data =>
    simp only [FetchResult.ok.injEq]
    by_cases hd : ((data.awardees.getD []).filter
        (fun a => ¬ (l.map fun b => b.id).contains a.id)).any
          (fun a => match env.deleteAwardee a.id with
            | .netError => true
            | .ok _ => false) = true
    · rw [if_pos hd]
      constructor
      · intro h
        simp at h
      · rintro ⟨data', hdata, hdel, -, -⟩
        subst hdata
        rw [not_any_of_deleteOk hdel] at hd
        cases hd
    · rw [if_neg hd]
      cases hb : env.batch with
      | netError =>
        dsimp only
        constructor
        · intro h
          simp at h
        · rintro ⟨data', hdata, -, ⟨r, hr, -⟩, -⟩
          cases hr
      | ok r =>
        dsimp only
        by_cases hro : r.ok = true
        · rw [if_neg (by simp [hro])]
          cases hc : env.postCategories with
          | netError =>
            dsimp only
            constructor
            · intro h
              simp at h
            · rintro ⟨data', hdata, -, -, c, hcc⟩
              cases hcc
          | ok c =>
            dsimp only
            constructor
            · intro h
              exact ⟨data, rfl, deleteOk_of_not_any hd, ⟨r, rfl, hro⟩, ⟨c, rfl⟩⟩
            · intro h
              rfl
        · rw [if_pos hro]
          constructor
          · intro h
            simp at h
          · rintro ⟨data', hdata, -, ⟨r', hr', hro'⟩, -⟩
            cases hr'
            exact absurd hro' hro

/-- A network environment in which every request resolves successfully. -/
def okSaveEnv : SaveEnv :=
  { getAwardees := .ok ⟨some [sampleAwardee 1]⟩
    deleteAwardee := fun _ => .ok ()
    batch := .ok ⟨true⟩
    postCategories := .ok ⟨true⟩ }

/-- Witness for C6 (amended): with every request resolving successfully,
the save reports success. -/
theorem handleSave_success_iff_witness :
    (handleSave okSaveEnv [] []).outcome = SaveOutcome.success :=
  (handleSave_success_iff okSaveEnv [] []).mpr
    ⟨⟨some [sampleAwardee 1]⟩, rfl, fun _ _ => rfl, ⟨⟨true⟩, rfl, rfl⟩, ⟨⟨true⟩, rfl⟩⟩

/-- A network environment in which every request resolves but the
custom-categories POST responds with a non-ok (HTTP error) status. -/
def catFailSaveEnv : SaveEnv :=
  { getAwardees := .ok ⟨some []⟩
    deleteAwardee := fun _ => .ok ()
    batch := .ok ⟨true⟩
    postCategories := .ok ⟨false⟩ }

/-- Counterexample to C6 as stated: the custom-category persistence step
fails (the endpoint responds non-ok), yet the save still reports
success — the source only logs that failure to the console, so it is not
true that Save reports success only when every step succeeds. -/
theorem save_reports_success_despite_category_failure_cex :
    (handleSave catFailSaveEnv [] []).outcome = SaveOutcome.success
    ∧ catFailSaveEnv.postCategories = .ok ⟨false⟩ :=
  ⟨rfl, rfl⟩

/-!
## C1 — save reconciliation
-/

/-- C1: a save that has fetched the server records issues deletes for
exactly the server ids that are absent from the local working copy, and
posts to the batch endpoint every local record tagged with an `order`
field equal to its position in the working copy. -/
theorem save_reconciliation (env : SaveEnv) (serverList l : List Awardee)
    (cats : List String)
    (hget : env.getAwardees = .ok ⟨some serverList⟩)
    (hdel : ∀ i : Int, env.deleteAwardee i = .ok ()) :
    ((handleSave env l cats).deletesIssued =
        (serverList.filter fun a => ¬ (l.map fun b => b.id).contains a.id).map fun a => a.id)
    ∧ (∀ i : Int, i ∈ (handleSave env l cats).deletesIssued ↔
        ((i ∈ serverList.map fun a => a.id) ∧ i ∉ l.map fun a => a.id))
    ∧ (handleSave env l cats).batchPosted = some (awardeesWithOrder l)
    ∧ (∀ k : Nat, (awardeesWithOrder l)[k]? = l[k]?.map fun a => ⟨a, k⟩) := by
  have hany : ((serverList.filter fun a => ¬ (l.map fun b => b.id).contains a.id).any
      (fun a => match env.deleteAwardee a.id with
        | .netError => true
        | .ok _ => false)) = false :=
    not_any_of_deleteOk fun a _ => hdel a.id
  have key : (handleSave env l cats).deletesIssued =
        ((serverList.filter fun a => ¬ (l.map fun b => b.id).contains a.id).map fun a => a.id)
      ∧ (handleSave env l cats).batchPosted = some (awardeesWithOrder l) := by
    unfold handleSave
    rw [hget]
    dsimp only
    rw [Option.getD_some]
    rw [if_neg (by rw [hany]; simp)]
    cases env.batch with
    | netError => exact ⟨rfl, rfl⟩
    | ok r =>
      dsimp only
      by_cases hro : r.ok = true
      · rw [if_neg (by simp [hro])]
        cases env.postCategories <;> exact ⟨rfl, rfl⟩
      · rw [if_pos hro]
        exact ⟨rfl, rfl⟩
  refine ⟨key.1, ?_, key.2, ?_⟩
  · intro i
    rw [key.1]
    simp only [List.mem_map, List.mem_filter]
    constructor
    · rintro ⟨a, ⟨ha, hpa⟩, rfl⟩
      refine ⟨⟨a, ha, rfl⟩, ?_⟩
      intro hmem
      simp at hpa
      rcases hmem with ⟨b, hb, hba⟩
      exact hpa b hb hba
    · rintro ⟨⟨a, ha, rfl⟩, hni⟩
      refine ⟨a, ⟨ha, ?_⟩, rfl⟩
      simp
      intro b hb hba
      exact hni ⟨b, hb, hba⟩
  · intro k
    unfold awardeesWithOrder
    rw [List.getElem?_map, List.getElem?_enum]
    cases l[k]? <;> rfl

/-- The network environment of the claim's concrete instance: the server
holds records with ids 1, 2, 3 and every request resolves. -/
def reconEnv : SaveEnv :=
  { getAwardees := .ok ⟨some [sampleAwardee 1, sampleAwardee 2, sampleAwardee 3]⟩
    deleteAwardee := fun _ => .ok ()
    batch := .ok ⟨true⟩
    postCategories := .ok ⟨true⟩ }

/-- The local working copy of the claim's concrete instance: ids 1, 3, 4. -/
def localAwardees : List Awardee :=
  [sampleAwardee 1, sampleAwardee 3, sampleAwardee 4]

/-- Witness for C1: with server ids 1, 2, 3 and local ids 1, 3, 4, the
delete set is exactly the id 2 and the batch payload is the three local
records with orders 0, 1, 2. -/
theorem save_reconciliation_witness :
    (((handleSave reconEnv localAwardees []).deletesIssued =
        (([sampleAwardee 1, sampleAwardee 2, sampleAwardee 3].filter
            fun a => ¬ (localAwardees.map fun b => b.id).contains a.id).map fun a => a.id))
      ∧ (∀ i : Int, i ∈ (handleSave reconEnv localAwardees []).deletesIssued ↔
          ((i ∈ [sampleAwardee 1, sampleAwardee 2, sampleAwardee 3].map fun a => a.id)
            ∧ i ∉ localAwardees.map fun a => a.id))
      ∧ (handleSave reconEnv localAwardees []).batchPosted =
          some (awardeesWithOrder localAwardees)
      ∧ (∀ k : Nat, (awardeesWithOrder localAwardees)[k]? =
          localAwardees[k]?.map fun a => ⟨a, k⟩))
    ∧ (handleSave reconEnv localAwardees []).deletesIssued = [2]
    ∧ (handleSave reconEnv localAwardees []).batchPosted =
        some [⟨sampleAwardee 1, 0⟩, ⟨sampleAwardee 3, 1⟩, ⟨sampleAwardee 4, 2⟩] :=
  ⟨save_reconciliation reconEnv [sampleAwardee 1, sampleAwardee 2, sampleAwardee 3]
      localAwardees [] rfl (fun _ => rfl), rfl, rfl⟩

/-!
## Key-value store lemmas
-/

theorem kvGet_kvSet_self (kv : List (String × StoredRecord)) (k : String)
    (v : StoredRecord) : kvGet (kvSet kv k v) k = some v := by
  induction kv with
  | nil => simp [kvSet, kvGet]
  | cons p rest ih =>
    by_cases h : p.1 = k
    · simp [kvSet, kvGet, h]
    · simp [kvSet, kvGet, h, ih]

theorem kvGet_kvSet_ne (kv : List (String × StoredRecord)) (k : String)
    (v : StoredRecord) (q : String) (h : q ≠ k) :
    kvGet (kvSet kv k v) q = kvGet kv q := by
  have hk : ¬ k = q := fun hk => h hk.symm
  induction kv with
  | nil => simp [kvSet, kvGet, hk]
  | cons p rest ih =>
    obtain ⟨k', v'⟩ := p
    by_cases hp : k' = k
    · subst hp
      simp [kvSet, kvGet, hk]
    · by_cases hq : k' = q
      · simp [kvSet, kvGet, hp, hq, if_neg h]
      · simp [kvSet, kvGet, hp, hq, ih]

theorem kvGet_kvDel_self (kv : List (String × StoredRecord)) (k : String) :
    kvGet (kvDel kv k) k = none := by
  induction kv with
  | nil => simp [kvDel, kvGet]
  | cons p rest ih =>
    by_cases h : p.1 = k
    · simp [kvDel, h, ih]
    · simp [kvDel, kvGet, h, ih]

theorem kvGet_kvDel_ne (kv : List (String × StoredRecord)) (k : String)
    (q : String) (h : q ≠ k) : kvGet (kvDel kv k) q = kvGet kv q := by
  induction kv with
  | nil => simp [kvDel]
  | cons p rest ih =>
    by_cases hp : p.1 = k
    · simp [kvDel, kvGet, hp, ih]
      rw [if_neg]
      intro hq
      exact h hq.symm
    · simp [kvDel, kvGet, hp, ih]

theorem kvDel_of_absent (kv : List (String × StoredRecord)) (k : String)
    (h : kvGet kv k = none) : kvDel kv k = kv := by
  induction kv with
  | nil => rfl
  | cons p rest ih =>
    by_cases hp : p.1 = k
    · rw [kvGet, if_pos hp] at h
      cases h
    · rw [kvGet, if_neg hp] at h
      rw [kvDel, if_neg hp, ih h]

/-!
## C8 — the DELETE route
-/

/-- C8: `DELETE /awardees/:id` always responds success; afterwards the
record key is absent and every other key is untouched; when the id did
not exist the server state is completely unchanged (no file removal, no
record change); when the record existed with a truthy `photoPath`, that
path is removed from storage. -/
theorem delete_awardee_route_spec (s : ServerState) (idParam : String) :
    ((deleteAwardeeRoute s idParam).2 = true)
    ∧ kvGet (deleteAwardeeRoute s idParam).1.kv ("awardee:" ++ idParam) = none
    ∧ (∀ k : String, k ≠ "awardee:" ++ idParam →
        kvGet (deleteAwardeeRoute s idParam).1.kv k = kvGet s.kv k)
    ∧ (kvGet s.kv ("awardee:" ++ idParam) = none → (deleteAwardeeRoute s idParam).1 = s)
    ∧ (∀ st : StoredRecord, kvGet s.kv ("awardee:" ++ idParam) = some st →
        ∀ p : String, st.record.photoPath = some p → p ≠ "" →
          (deleteAwardeeRoute s idParam).1.storage = s.storage.filter fun q => q ≠ p) := by
  refine ⟨rfl, ?_, ?_, ?_, ?_⟩
  · exact kvGet_kvDel_self _ _
  · intro k hk
    exact kvGet_kvDel_ne _ _ _ hk
  · intro habs
    unfold deleteAwardeeRoute
    dsimp only
    rw [habs, kvDel_of_absent _ _ habs]
  · intro st hst p hp hpne
    unfold deleteAwardeeRoute
    dsimp only
    rw [hst]
    dsimp only
    rw [hp]
    dsimp only
    exact if_neg hpne

/-- A server state holding one record (id 5) with a photo in storage,
used to instantiate the route theorems. -/
def sampleServerState : ServerState :=
  { kv := [("awardee:5",
      { record := { sampleAwardee 5 with photoPath := some "12345-photo.png" }
        order := some 0 })]
    storage := ["12345-photo.png", "other.png"] }

/-- Witness for C8: deleting id 5 removes its record and its stored
photo and leaves the other object alone; deleting the absent id 9 on the
same state changes nothing. -/
theorem delete_awardee_route_spec_witness :
    (((deleteAwardeeRoute sampleServerState "5").2 = true)
      ∧ kvGet (deleteAwardeeRoute sampleServerState "5").1.kv ("awardee:" ++ "5") = none
      ∧ (∀ k : String, k ≠ "awardee:" ++ "5" →
          kvGet (deleteAwardeeRoute sampleServerState "5").1.kv k =
            kvGet sampleServerState.kv k)
      ∧ (kvGet sampleServerState.kv ("awardee:" ++ "5") = none →
          (deleteAwardeeRoute sampleServerState "5").1 = sampleServerState)
      ∧ (∀ st : StoredRecord, kvGet sampleServerState.kv ("awardee:" ++ "5") = some st →
          ∀ p : String, st.record.photoPath = some p → p ≠ "" →
            (deleteAwardeeRoute sampleServerState "5").1.storage =
              sampleServerState.storage.filter fun q => q ≠ p))
    ∧ (deleteAwardeeRoute sampleServerState "5").1 =
        { kv := [], storage := ["other.png"] }
    ∧ (deleteAwardeeRoute sampleServerState "9").1 = sampleServerState :=
  ⟨delete_awardee_route_spec sampleServerState "5", rfl, rfl⟩

/-!
## C3 — the batch upsert endpoint
-/

theorem batchUpsert_storage (payload : List OrderedAwardee) :
    ∀ s : ServerState, (batchUpsertRoute s payload).1.storage = s.storage := by
  induction payload with
  | nil => intro s; rfl
  | cons a rest ih =>
    intro s
    exact ih _

theorem batchUpsert_kv_untouched (payload : List OrderedAwardee) :
    ∀ (s : ServerState) (k : String),
      (∀ a ∈ payload, ("awardee:" ++ toString a.record.id) ≠ k) →
      kvGet (batchUpsertRoute s payload).1.kv k = kvGet s.kv k := by
  induction payload with
  | nil =>
    intro s k _
    rfl
  | cons a rest ih =>
    intro s k h
    have hstep : (batchUpsertRoute s (a :: rest)).1 =
        (batchUpsertRoute
          { s with kv := kvSet s.kv ("awardee:" ++ toString a.record.id) ⟨a.record, some a.order⟩ } rest).1 := rfl
    rw [hstep, ih _ k (fun b hb => h b (List.mem_cons_of_mem a hb))]
    exact kvGet_kvSet_ne _ _ _ _ ((h a (List.mem_cons_self a rest)).symm)

theorem batchUpsert_kv_member (payload : List OrderedAwardee) :
    ∀ s : ServerState,
      (payload.map fun a => "awardee:" ++ toString a.record.id).Nodup →
      ∀ a ∈ payload,
        kvGet (batchUpsertRoute s payload).1.kv ("awardee:" ++ toString a.record.id) =
          some { record := a.record, order := some a.order } := by
  induction payload with
  | nil =>
    intro s _ a ha
    cases ha
  | cons b rest ih =>
    intro s hnodup a ha
    have hstep : (batchUpsertRoute s (b :: rest)).1 =
        (batchUpsertRoute
          { s with kv := kvSet s.kv ("awardee:" ++ toString b.record.id) ⟨b.record, some b.order⟩ } rest).1 := rfl
    rcases List.mem_cons.mp ha with hab | har
    · subst hab
      have hhead : ("awardee:" ++ toString a.record.id) ∉
          rest.map fun c => "awardee:" ++ toString c.record.id :=
        (List.nodup_cons.mp hnodup).1
      rw [hstep, batchUpsert_kv_untouched rest _ _
        (fun c hc heq => hhead (by rw [← heq]; exact List.mem_map.mpr ⟨c, hc, rfl⟩))]
      exact kvGet_kvSet_self _ _ _
    · rw [hstep]
      exact ih _ (List.nodup_cons.mp hnodup).2 a har

/-- C3: `POST /awardees/batch` upserts every posted record in one call —
afterwards each posted record (with pairwise distinct storage keys) is
stored under `awardee:{id}` with its `order`, no other key and no
storage object is touched — and the route responds with a success
indicator. -/
theorem batch_upsert_route_spec (s : ServerState) (payload : List OrderedAwardee)
    (hnodup : (payload.map fun a => "awardee:" ++ toString a.record.id).Nodup) :
    ((batchUpsertRoute s payload).2 = true)
    ∧ (∀ a ∈ payload,
        kvGet (batchUpsertRoute s payload).1.kv ("awardee:" ++ toString a.record.id) =
          some { record := a.record, order := some a.order })
    ∧ (∀ k : String, (∀ a ∈ payload, ("awardee:" ++ toString a.record.id) ≠ k) →
        kvGet (batchUpsertRoute s payload).1.kv k = kvGet s.kv k)
    ∧ (batchUpsertRoute s payload).1.storage = s.storage :=
  ⟨rfl, batchUpsert_kv_member payload s hnodup,
    batchUpsert_kv_untouched payload s, batchUpsert_storage payload s⟩

/-- Witness for C3: posting the three local records of the reconciliation
instance to an empty server stores all three under their keys with their
orders and succeeds. -/
theorem batch_upsert_route_spec_witness :
    (((batchUpsertRoute ⟨[], []⟩ (awardeesWithOrder localAwardees)).2 = true)
      ∧ (∀ a ∈ awardeesWithOrder localAwardees,
          kvGet (batchUpsertRoute ⟨[], []⟩ (awardeesWithOrder localAwardees)).1.kv
              ("awardee:" ++ toString a.record.id) =
            some { record := a.record, order := some a.order })
      ∧ (∀ k : String,
          (∀ a ∈ awardeesWithOrder localAwardees,
            ("awardee:" ++ toString a.record.id) ≠ k) →
          kvGet (batchUpsertRoute ⟨[], []⟩ (awardeesWithOrder localAwardees)).1.kv k =
            kvGet ([] : List (String × StoredRecord)) k)
      ∧ (batchUpsertRoute ⟨[], []⟩ (awardeesWithOrder localAwardees)).1.storage = [])
    ∧ kvGet (batchUpsertRoute ⟨[], []⟩ (awardeesWithOrder localAwardees)).1.kv
        "awardee:3" = some { record := sampleAwardee 3, order := some 1 } :=
  ⟨batch_upsert_route_spec ⟨[], []⟩ (awardeesWithOrder localAwardees) (by decide), rfl⟩

/-!
## C9 — preview-mode keyboard navigation
-/

/-- C9: while the editor panel is open every key is a no-op; with the
editor closed and preview mode on, the Right and Left arrows move to the
adjacent slide with wraparound modulo the number of visible slides (the
new index always lands inside the visible list, which contains no hidden
awardee — hidden slides are skipped entirely), and Escape exits preview
mode. -/
theorem keyboard_navigation (s : AppState) :
    (s.isEditorOpen = true → ∀ k : Key, handleKeyDown s k = s)
    ∧ (s.isEditorOpen = false → s.isPreviewMode = true →
        0 < (visibleAwardees s).length →
        ((handleKeyDown s Key.arrowRight).currentSlide =
            (s.currentSlide + 1) % (visibleAwardees s).length
          ∧ (handleKeyDown s Key.arrowLeft).currentSlide =
            (s.currentSlide + (visibleAwardees s).length - 1) %
              (visibleAwardees s).length
          ∧ (handleKeyDown s Key.arrowRight).currentSlide < (visibleAwardees s).length
          ∧ (handleKeyDown s Key.arrowLeft).currentSlide < (visibleAwardees s).length
          ∧ (handleKeyDown s Key.arrowRight).awardees = s.awardees
          ∧ (handleKeyDown s Key.arrowRight).isPreviewMode = true
          ∧ (handleKeyDown s Key.arrowLeft).isPreviewMode = true
          ∧ (handleKeyDown s Key.escape).isPreviewMode = false))
    ∧ (s.isPreviewMode = true → ∀ a ∈ visibleAwardees s, a.isHidden.getD false = false) := by
  refine ⟨?_, ?_, ?_⟩
  · intro he k
    simp [handleKeyDown, he]
  · intro he hp hlen
    refine ⟨?_, ?_, ?_, ?_, ?_, ?_, ?_, ?_⟩ <;>
      simp [handleKeyDown, he, hp, nextSlide, prevSlide] <;>
      exact Nat.mod_lt _ hlen
  · intro hp a ha
    rw [visibleAwardees, if_pos hp] at ha
    have h2 := (List.mem_filter.mp ha).2
    simpa using h2

/-- An awardee marked hidden, for the navigation witness. -/
def hiddenAwardee : Awardee := { sampleAwardee 2 with isHidden := some true }

/-- A preview-mode application state whose middle awardee (id 2) is
hidden: two slides are visible. -/
def sampleAppState : AppState :=
  { currentSlide := 1
    awardees := [sampleAwardee 1, hiddenAwardee, sampleAwardee 3]
    isEditorOpen := false
    isPreviewMode := true }

/-- Witness for C9: in the sample preview state (ids 1 and 3 visible,
id 2 hidden, currently on the second visible slide) the Right arrow
wraps to visible index 0, both arrows stay within the two visible
slides, and Escape exits preview mode. -/
theorem keyboard_navigation_witness :
    ((handleKeyDown sampleAppState Key.arrowRight).currentSlide =
        (sampleAppState.currentSlide + 1) % (visibleAwardees sampleAppState).length
      ∧ (handleKeyDown sampleAppState Key.arrowLeft).currentSlide =
        (sampleAppState.currentSlide + (visibleAwardees sampleAppState).length - 1) %
          (visibleAwardees sampleAppState).length
      ∧ (handleKeyDown sampleAppState Key.arrowRight).currentSlide <
          (visibleAwardees sampleAppState).length
      ∧ (handleKeyDown sampleAppState Key.arrowLeft).currentSlide <
          (visibleAwardees sampleAppState).length
      ∧ (handleKeyDown sampleAppState Key.arrowRight).awardees = sampleAppState.awardees
      ∧ (handleKeyDown sampleAppState Key.arrowRight).isPreviewMode = true
      ∧ (handleKeyDown sampleAppState Key.arrowLeft).isPreviewMode = true
      ∧ (handleKeyDown sampleAppState Key.escape).isPreviewMode = false)
    ∧ (handleKeyDown sampleAppState Key.arrowRight).currentSlide = 0 :=
  ⟨(keyboard_navigation sampleAppState).2.1 rfl rfl (by decide), rfl⟩
